import Mathlib

/-!
# Verification of the gomodguard module-blocking linter

A shallow embedding of `gomodguard.go`: the policy resolver that computes the
blocked-module set from the manifest's requirements and the allow
configuration, and the import scanner that matches imported package paths
against that set and produces diagnostics.  Go strings are modelled as Lean
`String`s with the case-insensitive operations defined over their character
lists; the external read (`ioutil.ReadFile`) and parse (`parser.ParseFile`)
operations are modelled by their observable outcomes recorded on each
submitted file.
-/

namespace Gomodguard

/-- Go `strings.ToLower`, modelled character by character (ASCII case
mapping via `Char.toLower`). -/
def lower (s : String) : String := ⟨s.data.map Char.toLower⟩

/-- Go `strings.HasPrefix s pre`: `s` begins with the full string `pre`. -/
def goHasPrefix (s pre : String) : Bool := pre.data.isPrefixOf s.data

/-- Go `strings.EqualFold a b`, modelled as equality after lower-casing. -/
def equalFold (a b : String) : Bool := lower a == lower b

/-- Go `strings.Trim(s, "\"")`: remove every leading and trailing
double-quote character (gomodguard.go line 164). -/
def trimQuotes (s : String) : String :=
  ⟨((s.data.dropWhile (· == '"')).reverse.dropWhile (· == '"')).reverse⟩

/-- The format string `blockedReason` (gomodguard.go lines 14-17) applied to
a package path, as `fmt.Sprintf` renders it. -/
def blockedReason (pkg : String) : String :=
  "import of package `" ++ pkg ++
    "` is blocked because the module is not in the allowed modules list."

/-- `Replacement` (gomodguard.go lines 20-24): blocked modules with a
replacement module and a reason. -/
structure Replacement where
  modules : List String
  replacement : String
  reason : String
deriving Repr, DecidableEq

/-- `Replacement.String` (gomodguard.go lines 27-29). -/
def Replacement.string (r : Replacement) : String :=
  "`" ++ r.replacement ++ "` should be used instead. reason: " ++ r.reason

/-- `Replacement.HasReplacement` (gomodguard.go lines 32-40): some trigger
module is a case-insensitive prefix of the package path. -/
def Replacement.hasReplacement (r : Replacement) (pkg : String) : Bool :=
  r.modules.any (fun m => goHasPrefix (lower pkg) (lower m))

/-- `Replacements` (gomodguard.go line 43). -/
abbrev Replacements := List Replacement

/-- `Replacements.Get` (gomodguard.go lines 46-54): the first rule in table
order with a replacement for the package; `none` models the Go `nil`. -/
def Replacements.get : Replacements → String → Option Replacement
  | [], _ => none
  | r :: rs, pkg => if r.hasReplacement pkg then some r else Replacements.get rs pkg

/-- `Allow` (gomodguard.go lines 57-60). -/
structure Allow where
  modules : List String
  domains : List String
deriving Repr, DecidableEq

/-- `Configuration` (gomodguard.go lines 63-66). -/
structure Configuration where
  allow : Allow
  replacements : Replacements
deriving Repr, DecidableEq

/-- One manifest requirement (`modfile.Require` as `setBlockedModules` reads
it): the module path and the indirect flag. -/
structure Require where
  path : String
  indirect : Bool
deriving Repr, DecidableEq

/-- `Result` (gomodguard.go lines 69-74); the `token.Position` field is
represented by the file name and line number the code copies out of it. -/
structure Result where
  fileName : String
  lineNumber : Nat
  reason : String
deriving Repr, DecidableEq

/-- `Result.String` (gomodguard.go lines 77-79). -/
def Result.string (r : Result) : String :=
  r.fileName ++ ":" ++ toString r.lineNumber ++ ": " ++ r.reason

/-- Outcome of the external read operation (`ioutil.ReadFile`) on one
submitted file. -/
inductive ReadResult where
  | ok
  | failed (err : String)
deriving Repr, DecidableEq

/-- One import declaration as the external parser yields it: the raw quoted
path literal (`Path.Value`) and the line of its source position. -/
structure ImportSpec where
  pathValue : String
  line : Nat
deriving Repr, DecidableEq

/-- A submitted file together with the outcomes of the two external
operations the scanner performs on it.  `parse` is the outcome of
`parser.ParseFile` for this file during this scan: when the read succeeded it
parses the bytes read, and after a failed read (where `data` is `nil`) it
falls back to the file path itself, which for an unreadable file fails
again. -/
structure SourceFile where
  filename : String
  read : ReadResult
  parse : Except String (List ImportSpec)

/-- `Processor` (gomodguard.go lines 82-88); the logger is omitted (pure
logging side effect) and the parsed `go.mod` is represented by its
requirement list. -/
structure Processor where
  config : Configuration
  modfileRequire : List Require
  blockedModules : List String
  result : List Result

/-- `Processor.isAllowedModuleDomain` (gomodguard.go lines 215-224), as a
function of the `config.Allow` field it reads. -/
def isAllowedModuleDomain (allow : Allow) (module : String) : Bool :=
  allow.domains.any (fun d => goHasPrefix (lower module) (lower d))

/-- `Processor.isAllowedModule` (gomodguard.go lines 228-237), as a function
of the `config.Allow` field it reads. -/
def isAllowedModule (allow : Allow) (module : String) : Bool :=
  allow.modules.any (fun m => equalFold module m)

/-- `Processor.isBlockedPackage` (gomodguard.go lines 241-250), as a function
of the `blockedModules` field it reads. -/
def isBlockedPackage (blocked : List String) (pkg : String) : Bool :=
  blocked.any (fun b => goHasPrefix (lower pkg) (lower b))

/-- The body of the requirement loop in `setBlockedModules` (gomodguard.go
lines 196-208): skip indirect requirements, skip allowed ones, append the
rest. -/
def requireStep (allow : Allow) (acc : List String) (r : Require) : List String :=
  if !r.indirect then
    if isAllowedModuleDomain allow r.path then acc
    else if isAllowedModule allow r.path then acc
    else acc ++ [r.path]
  else acc

/-- `Processor.setBlockedModules` (gomodguard.go lines 192-211), as a
function of the requirement list and allow configuration it reads. -/
def setBlockedModules (req : List Require) (allow : Allow) : List String :=
  req.foldl (requireStep allow) []

/-- `NewProcessor` (gomodguard.go lines 91-121) after `go.mod` has been read
and parsed by the external collaborators: the result list starts empty and
`setBlockedModules` is run once. -/
def newProcessor (config : Configuration) (req : List Require) : Processor :=
  { config := config
    modfileRequire := req
    blockedModules := setBlockedModules req config.allow
    result := [] }

/-- The read-failure diagnostic (gomodguard.go lines 134-138). -/
def readErrorResult (filename err : String) : Result :=
  ⟨filename, 0, "unable to read file, file cannot be linted (" ++ err ++ ")"⟩

/-- The parse-failure diagnostic (gomodguard.go lines 153-157). -/
def parseErrorResult (filename err : String) : Result :=
  ⟨filename, 0, "invalid syntax, file cannot be linted (" ++ err ++ ")"⟩

/-- `Processor.addError` (gomodguard.go lines 179-188): the position's file
name and line are those of the import token. -/
def Processor.addError (p : Processor) (filename : String) (line : Nat)
    (reason : String) : Processor :=
  { p with result := p.result ++ [⟨filename, line, reason⟩] }

/-- The message built for a blocked import (gomodguard.go lines 166-171):
the `blockedReason` format, and when `Replacements.Get` finds a rule, a
space and the rule's `String()` appended. -/
def reasonFor (reps : Replacements) (pkg : String) : String :=
  match Replacements.get reps pkg with
  | some r => blockedReason pkg ++ " " ++ r.string
  | none => blockedReason pkg

/-- One iteration of the import loop in `process` (gomodguard.go lines
163-175): trim the quotes, test the blocked set, add the error. -/
def Processor.processOneImport (p : Processor) (filename : String)
    (imp : ImportSpec) : Processor :=
  let pkg := trimQuotes imp.pathValue
  if isBlockedPackage p.blockedModules pkg then
    p.addError filename imp.line (reasonFor p.config.replacements pkg)
  else p

/-- `Processor.process` (gomodguard.go lines 148-176): on parse failure
append the parse diagnostic and return; otherwise walk the imports. -/
def Processor.process (p : Processor) (f : SourceFile) : Processor :=
  match f.parse with
  | .error err => { p with result := p.result ++ [parseErrorResult f.filename err] }
  | .ok imps => imps.foldl (fun q imp => q.processOneImport f.filename imp) p

/-- The body of the file loop in `ProcessFiles` (gomodguard.go lines
131-142): read the file, on failure append the read diagnostic, and in
either case hand the file to `process` (the code does not skip the file
after a failed read). -/
def Processor.scanFile (p : Processor) (f : SourceFile) : Processor :=
  match f.read with
  | .failed err =>
      Processor.process { p with result := p.result ++ [readErrorResult f.filename err] } f
  | .ok => p.process f

/-- `Processor.ProcessFiles` (gomodguard.go lines 124-145): return at once
when no module is blocked, otherwise fold the file loop over the batch.  The
returned `Processor` is the post-state of the receiver. -/
def Processor.processFiles (p : Processor) (files : List SourceFile) : Processor :=
  if p.blockedModules.length = 0 then p
  else files.foldl Processor.scanFile p

/-- The `[]Result` slice `ProcessFiles` returns (gomodguard.go lines 128 and
144): the `result` field of the post-state. -/
def Processor.processFilesResult (p : Processor) (files : List SourceFile) :
    List Result :=
  (p.processFiles files).result

/-- The diagnostic one import contributes, if any. -/
def diagForImport (reps : Replacements) (blocked : List String) (filename : String)
    (imp : ImportSpec) : Option Result :=
  let pkg := trimQuotes imp.pathValue
  if isBlockedPackage blocked pkg then some ⟨filename, imp.line, reasonFor reps pkg⟩
  else none

/-- Ordered concatenation of the lists a function produces. -/
def concatMap (f : α → List β) : List α → List β
  | [] => []
  | x :: xs => f x ++ concatMap f xs

/-- All diagnostics one file contributes to a scan, in order: the read
diagnostic, then either the parse diagnostic or the blocked-import
diagnostics in declaration order. -/
def fileDiags (reps : Replacements) (blocked : List String) (f : SourceFile) :
    List Result :=
  (match f.read with
   | .failed err => [readErrorResult f.filename err]
   | .ok => []) ++
  (match f.parse with
   | .error err => [parseErrorResult f.filename err]
   | .ok imps => imps.filterMap (diagForImport reps blocked f.filename))

theorem processOneImport_eq (p : Processor) (fn : String) (imp : ImportSpec) :
    p.processOneImport fn imp =
      { p with result := p.result ++
          (diagForImport p.config.replacements p.blockedModules fn imp).toList } := by
  cases h : isBlockedPackage p.blockedModules (trimQuotes imp.pathValue) <;>
    simp [Processor.processOneImport, diagForImport, Processor.addError, h]

theorem foldl_processOneImport (fn : String) (imps : List ImportSpec) :
    ∀ p : Processor,
      imps.foldl (fun q imp => q.processOneImport fn imp) p =
        { p with result := p.result ++
            imps.filterMap (diagForImport p.config.replacements p.blockedModules fn) } := by
  induction imps with
  | nil => intro p; simp
  | cons i is ih =>
      intro p
      rw [List.foldl_cons, processOneImport_eq, ih]
      cases h : diagForImport p.config.replacements p.blockedModules fn i <;>
        simp [h, List.filterMap_cons]

theorem process_eq (p : Processor) (f : SourceFile) :
    p.process f =
      { p with result := p.result ++
          (match f.parse with
           | .error err => [parseErrorResult f.filename err]
           | .ok imps => imps.filterMap
               (diagForImport p.config.replacements p.blockedModules f.filename)) } := by
  cases h : f.parse with
  | error e => simp [Processor.process, h]
  | ok imps => simp [Processor.process, h, foldl_processOneImport]

theorem scanFile_eq (p : Processor) (f : SourceFile) :
    p.scanFile f =
      { p with result := p.result ++
          fileDiags p.config.replacements p.blockedModules f } := by
  cases h : f.read with
  | ok => simp [Processor.scanFile, h, process_eq, fileDiags]
  | failed e => simp [Processor.scanFile, h, process_eq, fileDiags]

theorem foldl_scanFile (files : List SourceFile) :
    ∀ p : Processor,
      files.foldl Processor.scanFile p =
        { p with result := p.result ++
            concatMap (fileDiags p.config.replacements p.blockedModules) files } := by
  induction files with
  | nil => intro p; simp [concatMap]
  | cons f fs ih =>
      intro p
      rw [List.foldl_cons, scanFile_eq, ih]
      simp [concatMap]

theorem processFiles_eq (p : Processor) (files : List SourceFile) :
    p.processFiles files =
      if p.blockedModules.length = 0 then p
      else
        { p with result := p.result ++
            concatMap (fileDiags p.config.replacements p.blockedModules) files } := by
  unfold Processor.processFiles
  split
  · rfl
  · rw [foldl_scanFile]

theorem get_eq_find? (rs : Replacements) (pkg : String) :
    Replacements.get rs pkg = rs.find? (fun q => q.hasReplacement pkg) := by
  induction rs with
  | nil => rfl
  | cons r rest ih =>
      unfold Replacements.get
      cases h : r.hasReplacement pkg <;> simp [h, ih]
/-! ## Concrete instances used by counterexamples and witnesses -/

/-- A processor over a manifest with the single direct dependency
`example.com/dep` and an empty allow configuration: that dependency is
blocked. -/
def exProcessor : Processor :=
  newProcessor ⟨⟨[], []⟩, []⟩ [⟨"example.com/dep", false⟩]

/-- A file that reads and parses fine and imports the blocked module at
line 3. -/
def exImportFile : SourceFile :=
  ⟨"m.go", .ok, .ok [⟨"\"example.com/dep\"", 3⟩]⟩

/-- A file whose read fails; the subsequent parse attempt (on the path, the
data being nil) fails as well. -/
def exUnreadableFile : SourceFile :=
  ⟨"bad.go", .failed "open bad.go: no such file or directory",
    .error "bad.go: no such file or directory"⟩

/-- A file that reads fine but has invalid syntax. -/
def exSyntaxFile : SourceFile :=
  ⟨"syn.go", .ok, .error "syn.go:1:1: expected declaration, found bad"⟩

/-! ## Claim-specific helper lemmas -/

theorem foldl_requireStep (allow : Allow) (l : List Require) :
    ∀ acc : List String,
      l.foldl (requireStep allow) acc =
        acc ++ (l.filter (fun r => !r.indirect && !isAllowedModuleDomain allow r.path
          && !isAllowedModule allow r.path)).map Require.path := by
  induction l with
  | nil => intro acc; simp
  | cons r rs ih =>
      intro acc
      rw [List.foldl_cons, ih]
      cases hi : r.indirect <;> cases hd : isAllowedModuleDomain allow r.path <;>
        cases hm : isAllowedModule allow r.path <;>
        simp [requireStep, hi, hd, hm, List.filter_cons]

/-! ## The claims -/

/-- C1: the blocked-module set contains, in encounter order, exactly the
paths of the direct requirements whose lowercase path starts with no
lowercase allowed domain and that case-insensitively equal no allowed
module; an all-indirect manifest yields an empty set, and with an empty
allow configuration every direct requirement is blocked. -/
theorem setBlockedModules_spec (req : List Require) (allow : Allow) :
    setBlockedModules req allow =
      (req.filter (fun r => !r.indirect && !isAllowedModuleDomain allow r.path
        && !isAllowedModule allow r.path)).map Require.path ∧
    setBlockedModules req { modules := [], domains := [] } =
      (req.filter (fun r => !r.indirect)).map Require.path ∧
    ((∀ r ∈ req, r.indirect = true) → setBlockedModules req allow = []) := by
  refine ⟨?_, ?_, ?_⟩
  · unfold setBlockedModules; rw [foldl_requireStep]; simp
  · unfold setBlockedModules; rw [foldl_requireStep]
    simp [isAllowedModuleDomain, isAllowedModule]
  · intro h
    unfold setBlockedModules; rw [foldl_requireStep]
    simp only [List.nil_append, List.map_eq_nil_iff, List.filter_eq_nil_iff]
    intro r hr
    simp [h r hr]

/-- C2: a package is flagged iff the lowercase of the full package path has
the lowercase of some full blocked entry as a prefix of its character list,
with no path-segment awareness: the blocked entry `github.com/evil/pkg`
matches both `github.com/evil/pkg/sub` (across the `/sub` boundary) and
`github.com/evil/pkgextra`; a scan over such an import yields the diagnostic
at the import's line. -/
theorem isBlockedPackage_spec (blocked : List String) (pkg : String) :
    (isBlockedPackage blocked pkg = true ↔
      ∃ b ∈ blocked, (lower b).data <+: (lower pkg).data) ∧
    isBlockedPackage ["github.com/evil/pkg"] "github.com/evil/pkg/sub" = true ∧
    isBlockedPackage ["github.com/evil/pkg"] "github.com/evil/pkgextra" = true ∧
    (newProcessor ⟨⟨[], []⟩, []⟩ [⟨"github.com/evil/pkg", false⟩]).processFilesResult
        [⟨"a.go", .ok, .ok [⟨"\"github.com/evil/pkg/sub\"", 7⟩]⟩] =
      [⟨"a.go", 7, "import of package `github.com/evil/pkg/sub` is blocked because the module is not in the allowed modules list."⟩] := by
  refine ⟨?_, by decide, by decide, by decide⟩
  simp [isBlockedPackage, goHasPrefix, List.any_eq_true, List.isPrefixOf_iff_prefix]

/-- C3: with an empty blocked-module set a scan leaves the processor
untouched — the result is independent of the submitted files, so no file is
consulted — and a freshly constructed processor whose blocked set is empty
returns an empty result. -/
theorem processFiles_empty_blocked (p : Processor) (files : List SourceFile)
    (config : Configuration) (req : List Require) :
    (p.blockedModules = [] → p.processFiles files = p) ∧
    (setBlockedModules req config.allow = [] →
      (newProcessor config req).processFilesResult files = []) := by
  constructor
  · intro h; rw [processFiles_eq]; simp [h]
  · intro h
    unfold Processor.processFilesResult
    rw [processFiles_eq]
    simp [newProcessor, h]
/-- C4 counterexample: a batch holding an unreadable file produces TWO
diagnostics for that file, not exactly one — after appending the read-error
diagnostic the code still hands the file to `process` (gomodguard.go line
141 has no `continue`), whose parse attempt on the unreadable path fails and
appends a second diagnostic. -/
theorem read_failure_not_single_diag :
    ((exProcessor.processFilesResult [exUnreadableFile, exImportFile]).filter
      (fun r => r.fileName == "bad.go")).length = 2 ∧
    ¬ ((exProcessor.processFilesResult [exUnreadableFile, exImportFile]).filter
      (fun r => r.fileName == "bad.go")).length = 1 :=
  ⟨by decide, by decide⟩

/-- C4 (amended): when a file's read fails, the scan appends the line-0
read-error diagnostic, then still submits the file to parsing — which, the
file being unreadable, fails too and appends a second line-0 parse-error
diagnostic — and then continues with the remaining files of the batch. -/
theorem processFiles_read_failure (p : Processor) (f : SourceFile)
    (rest : List SourceFile) (e pe : String)
    (hb : p.blockedModules ≠ []) (hr : f.read = .failed e)
    (hp : f.parse = .error pe) :
    p.processFiles (f :: rest) =
      Processor.processFiles
        { p with result := p.result ++
            [readErrorResult f.filename e, parseErrorResult f.filename pe] } rest := by
  have hlen : ¬ p.blockedModules.length = 0 := by simpa using hb
  rw [processFiles_eq, processFiles_eq]
  simp [hlen, concatMap, fileDiags, hr, hp]

/-- C4 witness: the amended statement evaluated on a concrete batch with an
unreadable first file and a second file that is still processed. -/
theorem processFiles_read_failure_witness :
    exProcessor.processFiles [exUnreadableFile, exImportFile] =
      Processor.processFiles
        { exProcessor with result := exProcessor.result ++
            [readErrorResult exUnreadableFile.filename
              "open bad.go: no such file or directory",
             parseErrorResult exUnreadableFile.filename
              "bad.go: no such file or directory"] }
        [exImportFile] :=
  processFiles_read_failure exProcessor exUnreadableFile [exImportFile]
    "open bad.go: no such file or directory" "bad.go: no such file or directory"
    (by decide) rfl rfl

/-- C5 counterexample: the diagnostic message wraps the package path in
backticks, not double quotes: the claimed message with
`"example.com/dep"` in double quotes is not produced. -/
theorem blocked_message_uses_backticks :
    exProcessor.processFilesResult [exImportFile] ≠
      [⟨"m.go", 3, "import of package \"example.com/dep\" is blocked because the module is not in the allowed modules list."⟩] ∧
    exProcessor.processFilesResult [exImportFile] =
      [⟨"m.go", 3, "import of package `example.com/dep` is blocked because the module is not in the allowed modules list."⟩] :=
  ⟨by decide, by decide⟩

set_option maxRecDepth 4000 in
/-- C5 (amended): the message for a blocked import is exactly
``import of package `<pkg>` is blocked because the module is not in the
allowed modules list.`` (backticks around the path), and when a replacement
rule matches, `` `<replacement>` should be used instead. reason: <reason>``
is appended, separated by a single space. -/
theorem reasonFor_format (reps : Replacements) (pkg : String) :
    (Replacements.get reps pkg = none → reasonFor reps pkg =
      "import of package `" ++ pkg ++
        "` is blocked because the module is not in the allowed modules list.") ∧
    (∀ r : Replacement, Replacements.get reps pkg = some r → reasonFor reps pkg =
      "import of package `" ++ pkg ++
        "` is blocked because the module is not in the allowed modules list. `" ++
        r.replacement ++ "` should be used instead. reason: " ++ r.reason) ∧
    reasonFor [⟨["github.com/evil/pkg"], "github.com/good/pkg", "unmaintained"⟩]
        "github.com/evil/pkg/sub" =
      "import of package `github.com/evil/pkg/sub` is blocked because the module is not in the allowed modules list. `github.com/good/pkg` should be used instead. reason: unmaintained" := by
  refine ⟨?_, ?_, by decide⟩
  · intro h
    simp [reasonFor, h, blockedReason]
  · intro r h
    simp only [reasonFor, h, blockedReason, Replacement.string]
    simp only [String.append_assoc]
    have hlit : ∀ t : String,
        ("` is blocked because the module is not in the allowed modules list." : String) ++
            (" " ++ ("`" ++ t)) =
          "` is blocked because the module is not in the allowed modules list. `" ++ t := by
      intro t
      rw [← String.append_assoc, ← String.append_assoc]
      have : (("` is blocked because the module is not in the allowed modules list." ++ " " ++ "`") : String) =
          "` is blocked because the module is not in the allowed modules list. `" := by decide
      rw [this]
    rw [hlit]

/-- C6 counterexample: the result accumulator is not reset between scan
invocations — a second call on the same processor returns the first call's
diagnostic again, doubled. -/
theorem scan_result_carries_over :
    (exProcessor.processFiles [exImportFile]).processFilesResult [exImportFile] =
      exProcessor.processFilesResult [exImportFile] ++
        exProcessor.processFilesResult [exImportFile] ∧
    exProcessor.processFilesResult [exImportFile] ≠ [] :=
  ⟨by decide, by decide⟩

/-- C6 (amended): the accumulator starts empty at construction and persists
across scan invocations: each call appends the diagnostics of its batch and
returns everything accumulated since construction, so a later call's return
value contains the earlier calls' diagnostics as a prefix. -/
theorem processFiles_result_monotone (p : Processor) (files : List SourceFile)
    (config : Configuration) (req : List Require) :
    (p.processFiles files).result =
      p.result ++
        (if p.blockedModules.length = 0 then []
         else concatMap (fileDiags p.config.replacements p.blockedModules) files) ∧
    (newProcessor config req).result = [] := by
  constructor
  · rw [processFiles_eq]; split <;> simp
  · rfl

/-- C7: replacement lookup returns the first rule, in table order, some
trigger module of which case-insensitively prefixes the package path — every
rule before it does not match, so a later matching rule is never used — and
returns nothing iff no rule matches. -/
theorem replacements_get_spec (rs : Replacements) (pkg : String) :
    (∀ r : Replacement,
      Replacements.get rs pkg = some r ↔
        r.hasReplacement pkg = true ∧
        ∃ pre post, rs = pre ++ r :: post ∧
          ∀ q ∈ pre, q.hasReplacement pkg = false) ∧
    (Replacements.get rs pkg = none ↔ ∀ q ∈ rs, q.hasReplacement pkg = false) := by
  constructor
  · intro r
    rw [get_eq_find?, List.find?_eq_some]
    simp
  · rw [get_eq_find?, List.find?_eq_none]
    simp
/-- C8: when a file reads fine but its parse fails, the scan appends exactly
one line-0 parse-error diagnostic for it — a failed parse yields no imports,
so no import matching happens for the file — and continues with the
remaining files of the batch. -/
theorem processFiles_parse_failure (p : Processor) (f : SourceFile)
    (rest : List SourceFile) (e : String)
    (hb : p.blockedModules ≠ []) (hr : f.read = .ok) (hp : f.parse = .error e) :
    p.processFiles (f :: rest) =
      Processor.processFiles
        { p with result := p.result ++ [parseErrorResult f.filename e] } rest ∧
    (parseErrorResult f.filename e).lineNumber = 0 := by
  refine ⟨?_, rfl⟩
  have hlen : ¬ p.blockedModules.length = 0 := by simpa using hb
  rw [processFiles_eq, processFiles_eq]
  simp [hlen, concatMap, fileDiags, hr, hp]

/-- C8 witness: the statement evaluated on a concrete batch whose first file
has invalid syntax and whose second file is still processed. -/
theorem processFiles_parse_failure_witness :
    (exProcessor.processFiles [exSyntaxFile, exImportFile] =
      Processor.processFiles
        { exProcessor with result := exProcessor.result ++
            [parseErrorResult exSyntaxFile.filename
              "syn.go:1:1: expected declaration, found bad"] }
        [exImportFile]) ∧
    (parseErrorResult exSyntaxFile.filename
      "syn.go:1:1: expected declaration, found bad").lineNumber = 0 :=
  processFiles_parse_failure exProcessor exSyntaxFile [exImportFile]
    "syn.go:1:1: expected declaration, found bad" (by decide) rfl rfl

/-- C9: a scan on a fresh processor returns the per-file diagnostic lists
concatenated in the order the files were submitted, and within one file the
blocked-import diagnostics are the order-preserving `filterMap` over the
file's imports in declaration order (`fileDiags`). -/
theorem processFiles_ordering (config : Configuration) (req : List Require)
    (files : List SourceFile) :
    (newProcessor config req).processFilesResult files =
      if (setBlockedModules req config.allow).length = 0 then []
      else concatMap (fileDiags config.replacements (setBlockedModules req config.allow))
        files := by
  unfold Processor.processFilesResult
  rw [processFiles_eq]
  unfold newProcessor
  split <;> simp_all

/-- C10: a scan mutates only the result accumulator: the configuration, the
cached blocked-module set and the parsed manifest of the processor are
unchanged by `processFiles`, so repeated scans apply the same policy. -/
theorem processFiles_frame (p : Processor) (files : List SourceFile) :
    (p.processFiles files).config = p.config ∧
    (p.processFiles files).blockedModules = p.blockedModules ∧
    (p.processFiles files).modfileRequire = p.modfileRequire := by
  refine ⟨?_, ?_, ?_⟩ <;> (rw [processFiles_eq]; split <;> rfl)
end Gomodguard
